import Mathlib

/-!
Verification of the betternews forum backend core: nested comment threading
with denormalized counters and idempotent upvote toggling.

The data model embeds the Drizzle schemas (`postsTable`, `commentsTable`,
`postUpvoteTable`, `commentsUpvoteTable`); the operations embed the bodies of
the Hono route handlers in `src/server/routes/auth.ts` (the comments router and
the post router). Database rows are lists of structures; a `serial` primary key
column is modelled by a `next…Id` counter in the database state; SQL `UPDATE …
WHERE` is a `List.map` that rewrites the matching rows, and `RETURNING` of the
single matched row (primary-key lookups match at most one row) is a
`List.find?`. A `db.transaction` body that throws is modelled by returning
`Except.error` and leaving the pre-state in force (rollback): `step` below maps
a failed operation to the unchanged state.
-/

/-- A row of `postsTable` (`src/db/schemas/posts`): serial id, author id,
title, nullable content and url, `points` and `commentCount` integer counters
defaulting to 0, creation timestamp. -/
structure Post where
  id : Nat
  userId : String
  title : String := ""
  content : Option String := none
  url : Option String := none
  points : Int := 0
  commentCount : Int := 0
  createdAt : Nat := 0
  deriving Repr, DecidableEq

/-- A row of `commentsTable` (`src/db/schemas/comments`): serial id, author id,
`postId` (not null), nullable `parentCommentId`, content, `depth`,
`commentCount` and `points` integer columns defaulting to 0. -/
structure CommentRow where
  id : Nat
  userId : String
  postId : Nat
  parentCommentId : Option Nat := none
  content : String := ""
  createdAt : Nat := 0
  depth : Int := 0
  commentCount : Int := 0
  points : Int := 0
  deriving Repr, DecidableEq

/-- A row of `postUpvoteTable`: serial id, user id, post id. -/
structure PostUpvoteRow where
  id : Nat
  userId : String
  postId : Nat
  createdAt : Nat := 0
  deriving Repr, DecidableEq

/-- A row of `commentsUpvoteTable`: serial id, user id, comment id. -/
structure CommentUpvoteRow where
  id : Nat
  userId : String
  commentId : Nat
  createdAt : Nat := 0
  deriving Repr, DecidableEq

/-- A row of `userTable` as used by the read paths (the `author` projection
selects `username` and `id`). -/
structure UserRow where
  id : String
  username : String
  deriving Repr, DecidableEq

/-- The relational store: one list per table, one counter per `serial` primary
key, and a clock supplying `defaultNow()` timestamps. -/
structure DB where
  users : List UserRow := []
  posts : List Post := []
  comments : List CommentRow := []
  postUpvotes : List PostUpvoteRow := []
  commentUpvotes : List CommentUpvoteRow := []
  nextPostId : Nat := 1
  nextCommentId : Nat := 1
  nextPostUpvoteId : Nat := 1
  nextCommentUpvoteId : Nat := 1
  now : Nat := 0
  deriving Repr, DecidableEq

/-- The error taxonomy surfaced by the handlers relevant here: every abort in
scope is an `HTTPException(404, { message })`. -/
inductive ApiError where
  | notFound (msg : String)
  deriving Repr, DecidableEq

deriving instance DecidableEq for Except

/-- Embeds `postRouter POST /` (auth.ts:354-377): insert a post with the
defaults `points = 0`, `commentCount = 0`, returning the new id. -/
def createPost (db : DB) (userId title : String)
    (content url : Option String) : DB × Nat :=
  let newPost : Post :=
    { id := db.nextPostId, userId, title, content, url, createdAt := db.now }
  ({ db with posts := db.posts ++ [newPost], nextPostId := db.nextPostId + 1 },
    newPost.id)

/-- Embeds the transaction body of `postRouter POST /:id/comment`
(auth.ts:501-557): increment the post's `commentCount` (404 "Post not found"
when the `UPDATE` matches no row), then insert a comment carrying only
`content`, `userId`, `postId` so that `parentCommentId`, `depth`,
`commentCount`, `points` take their column defaults. -/
def createTopLevelComment (db : DB) (id : Nat) (userId content : String) :
    Except ApiError (DB × CommentRow) :=
  match db.posts.find? (fun p => p.id == id) with
  | none => .error (.notFound "Post not found")
  | some _ =>
      let posts := db.posts.map fun p =>
        if p.id == id then { p with commentCount := p.commentCount + 1 } else p
      let newComment : CommentRow :=
        { id := db.nextCommentId, userId, postId := id, content,
          createdAt := db.now }
      .ok ({ db with
             posts := posts,
             comments := db.comments ++ [newComment],
             nextCommentId := db.nextCommentId + 1 }, newComment)

/-- Embeds the transaction body of `commentsRouter POST /:id`
(auth.ts:135-192): look up the parent comment (404 "Comment not found" when
missing), increment its `commentCount`, increment the owning post's
`commentCount` (404 "Error creating comment" when that `UPDATE` matches no
row), then insert the reply with `parentCommentId = parent.id`,
`depth = parent.depth + 1`, `postId = parent.postId`. -/
def createReply (db : DB) (id : Nat) (userId content : String) :
    Except ApiError (DB × CommentRow) :=
  match db.comments.find? (fun c => c.id == id) with
  | none => .error (.notFound "Comment not found")
  | some parentComment =>
      let postId := parentComment.postId
      let comments := db.comments.map fun c =>
        if c.id == parentComment.id then
          { c with commentCount := c.commentCount + 1 }
        else c
      match db.posts.find? (fun p => p.id == postId) with
      | none => .error (.notFound "Error creating comment")
      | some _ =>
          let posts := db.posts.map fun p =>
            if p.id == postId then
              { p with commentCount := p.commentCount + 1 }
            else p
          let newComment : CommentRow :=
            { id := db.nextCommentId, userId, postId,
              parentCommentId := some parentComment.id, content,
              depth := parentComment.depth + 1, createdAt := db.now }
          .ok ({ db with
                 posts := posts,
                 comments := comments ++ [newComment],
                 nextCommentId := db.nextCommentId + 1 }, newComment)

/-- Embeds the transaction body of `postRouter POST /:id/upvote`
(auth.ts:446-499): find an existing `(postId, userId)` upvote row, set
`pointsChanges` to `-1` when found and `1` otherwise, apply it to the post's
`points` (404 "Post not Found" when the `UPDATE` matches no row), then delete
the found row or insert a fresh one. The handler responds with
`count = updated.points` and `isUpvoted = pointsChanges > 0`. -/
def togglePostUpvote (db : DB) (id : Nat) (userId : String) :
    Except ApiError (DB × Int × Bool) :=
  let existingUpvote := db.postUpvotes.find? fun u =>
    u.postId == id && u.userId == userId
  let pointsChanges : Int := if existingUpvote.isSome then -1 else 1
  match db.posts.find? (fun p => p.id == id) with
  | none => .error (.notFound "Post not Found")
  | some p =>
      let posts := db.posts.map fun q =>
        if q.id == id then { q with points := q.points + pointsChanges } else q
      let db1 :=
        match existingUpvote with
        | some u =>
            { db with
              posts := posts,
              postUpvotes := db.postUpvotes.filter fun v => v.id != u.id }
        | none =>
            { db with
              posts := posts,
              postUpvotes := db.postUpvotes ++
                [{ id := db.nextPostUpvoteId, userId, postId := id,
                   createdAt := db.now }],
              nextPostUpvoteId := db.nextPostUpvoteId + 1 }
      .ok (db1, p.points + pointsChanges, decide (pointsChanges > 0))

/-- Embeds the transaction body of `commentsRouter POST /:id/upvote`
(auth.ts:209-268): same toggle on `commentsTable` / `commentsUpvoteTable`
(404 "Comment not found" when the points `UPDATE` matches no row). The handler
responds with `count = updated.points` and
`commentUpvotes = pointsChange === 1 ? [{ userId }] : []`. -/
def toggleCommentUpvote (db : DB) (id : Nat) (userId : String) :
    Except ApiError (DB × Int × List String) :=
  let existingUpvote := db.commentUpvotes.find? fun u =>
    u.commentId == id && u.userId == userId
  let pointsChange : Int := if existingUpvote.isSome then -1 else 1
  match db.comments.find? (fun c => c.id == id) with
  | none => .error (.notFound "Comment not found")
  | some c =>
      let comments := db.comments.map fun d =>
        if d.id == id then { d with points := d.points + pointsChange } else d
      let db1 :=
        match existingUpvote with
        | some u =>
            { db with
              comments := comments,
              commentUpvotes := db.commentUpvotes.filter fun v => v.id != u.id }
        | none =>
            { db with
              comments := comments,
              commentUpvotes := db.commentUpvotes ++
                [{ id := db.nextCommentUpvoteId, userId, commentId := id,
                   createdAt := db.now }],
              nextCommentUpvoteId := db.nextCommentUpvoteId + 1 }
      .ok (db1, c.points + pointsChange,
        if pointsChange == 1 then [userId] else [])

/-- The mutating operations of the core, as a trace alphabet. -/
inductive Op where
  | createPost (userId title : String) (content url : Option String)
  | createTopLevelComment (postId : Nat) (userId content : String)
  | createReply (parentCommentId : Nat) (userId content : String)
  | togglePostUpvote (postId : Nat) (userId : String)
  | toggleCommentUpvote (commentId : Nat) (userId : String)
  deriving Repr, DecidableEq

/-- One request against the store. A transaction that throws commits nothing
(`db.transaction` rolls back every write on an exception), so a failing
operation leaves the state unchanged. -/
def step (db : DB) : Op → DB
  | .createPost u t c l => (createPost db u t c l).1
  | .createTopLevelComment p u c =>
      match createTopLevelComment db p u c with
      | .ok r => r.1
      | .error _ => db
  | .createReply p u c =>
      match createReply db p u c with
      | .ok r => r.1
      | .error _ => db
  | .togglePostUpvote p u =>
      match togglePostUpvote db p u with
      | .ok r => r.1
      | .error _ => db
  | .toggleCommentUpvote cid u =>
      match toggleCommentUpvote db cid u with
      | .ok r => r.1
      | .error _ => db

/-- Run a sequence of operations. -/
def run (db : DB) (ops : List Op) : DB :=
  ops.foldl step db

example :
    createTopLevelComment { posts := [{ id := 1, userId := "a" }] } 1 "b" "hi" =
      .ok ({ posts := [{ id := 1, userId := "a", commentCount := 1 }],
             comments := [{ id := 1, userId := "b", postId := 1,
                            content := "hi" }],
             nextCommentId := 2 },
           { id := 1, userId := "b", postId := 1, content := "hi" }) := by
  decide

/-- The `sortBy` query parameter: `points` or `createdAt`. -/
inductive SortBy where
  | points
  | createdAt
  deriving Repr, DecidableEq

/-- The `order` query parameter: `asc` or `desc`. -/
inductive SortOrder where
  | asc
  | desc
  deriving Repr, DecidableEq

/-- The sort column chosen by `sortBy === "points" ? points : createdAt`. -/
def commentSortKey (sb : SortBy) (c : CommentRow) : Int :=
  match sb with
  | .points => c.points
  | .createdAt => (c.createdAt : Int)

/-- The comparison realised by `order === "desc" ? desc(col) : asc(col)` on
comment rows. -/
def commentLe (sb : SortBy) (o : SortOrder) (a b : CommentRow) : Prop :=
  match o with
  | .asc => commentSortKey sb a ≤ commentSortKey sb b
  | .desc => commentSortKey sb b ≤ commentSortKey sb a

instance (sb : SortBy) (o : SortOrder) : DecidableRel (commentLe sb o) :=
  fun a b => by
    unfold commentLe
    cases o <;> exact inferInstance

instance (sb : SortBy) (o : SortOrder) : IsTotal CommentRow (commentLe sb o) :=
  ⟨by intro a b; unfold commentLe; cases o <;> exact le_total _ _⟩

instance (sb : SortBy) (o : SortOrder) : IsTrans CommentRow (commentLe sb o) :=
  ⟨by
    intro a b c
    unfold commentLe
    cases o
    · exact fun h1 h2 => le_trans h1 h2
    · exact fun h1 h2 => le_trans h2 h1⟩

/-- `ORDER BY` on comment rows. -/
def sortComments (sb : SortBy) (o : SortOrder) (l : List CommentRow) :
    List CommentRow :=
  l.insertionSort (commentLe sb o)

/-- The sort column on post rows. -/
def postSortKey (sb : SortBy) (p : Post) : Int :=
  match sb with
  | .points => p.points
  | .createdAt => (p.createdAt : Int)

/-- The comparison realised by `order === "desc" ? desc(col) : asc(col)` on
post rows. -/
def postLe (sb : SortBy) (o : SortOrder) (a b : Post) : Prop :=
  match o with
  | .asc => postSortKey sb a ≤ postSortKey sb b
  | .desc => postSortKey sb b ≤ postSortKey sb a

instance (sb : SortBy) (o : SortOrder) : DecidableRel (postLe sb o) :=
  fun a b => by
    unfold postLe
    cases o <;> exact inferInstance

instance (sb : SortBy) (o : SortOrder) : IsTotal Post (postLe sb o) :=
  ⟨by intro a b; unfold postLe; cases o <;> exact le_total _ _⟩

instance (sb : SortBy) (o : SortOrder) : IsTrans Post (postLe sb o) :=
  ⟨by
    intro a b c
    unfold postLe
    cases o
    · exact fun h1 h2 => le_trans h1 h2
    · exact fun h1 h2 => le_trans h2 h1⟩

/-- `ORDER BY` on post rows. -/
def sortPosts (sb : SortBy) (o : SortOrder) (l : List Post) : List Post :=
  l.insertionSort (postLe sb o)

/-- `countDistinct(table.id)` over the filtered rows. -/
def countDistinctIds (ids : List Nat) : Nat :=
  ids.dedup.length

/-- Embeds the `totalPages` expression `Math.ceil(count?.count || 0 / limit)`
shared by all three listings (auth.ts:323, 442, 660). In JavaScript `/` binds
tighter than `||`, so the expression is `count` when `count` is non-zero and
`0 / limit` otherwise; `Math.ceil` of an integer is the integer itself. -/
def codeTotalPages (count limit : Nat) : Nat :=
  if count == 0 then 0 / limit else count

/-- Page metadata of the paginated responses. -/
structure PageInfo where
  page : Nat
  totalPages : Nat
  deriving Repr, DecidableEq

/-- The `author` relation projection (`columns: { username, id }`). -/
def findUser (db : DB) (userId : String) : Option UserRow :=
  db.users.find? fun u => u.id == userId

/-- The `commentUpvotes` relation projection used by both comment listings:
`columns: { userId }, where: eq(userId, user?.id ?? ""), limit: 1` — the rows
of the relation (those with this `commentId`) restricted to the viewer's id
(the empty string when no user is logged in), truncated to one row. -/
def viewerUpvoteRows (db : DB) (viewer : Option String) (commentId : Nat) :
    List String :=
  (((db.commentUpvotes.filter fun r =>
      r.commentId == commentId && r.userId == viewer.getD "").map
    (fun r => r.userId)).take 1)

/-- A child row as returned inside `childComments` by
`postRouter GET /:id/comments`. -/
structure CommentChild where
  comment : CommentRow
  author : Option UserRow
  commentUpvotes : List String
  deriving Repr, DecidableEq

/-- A comment item as returned by the comment listings: the row, the `author`
projection, the viewer-restricted `commentUpvotes`, and (only for the
top-level listing) the eagerly loaded `childComments`. -/
structure CommentView where
  comment : CommentRow
  author : Option UserRow
  commentUpvotes : List String
  childComments : List CommentChild := []
  deriving Repr, DecidableEq

/-- A post item as returned by `GET /` and `GET /:id`: the selected row
columns, the `author` projection, and the request-local `isUpvoted` boolean
(`CASE WHEN … IS NOT NULL` over a left join on the viewer's upvote row when a
user is present, the constant `false` otherwise). -/
structure PostView where
  post : Post
  author : Option UserRow
  isUpvoted : Bool
  deriving Repr, DecidableEq

/-- The per-post `isUpvoted` projection of auth.ts:408-410 / 685-687. -/
def postIsUpvoted (db : DB) (viewer : Option String) (postId : Nat) : Bool :=
  match viewer with
  | some uid =>
      (db.postUpvotes.find? fun r => r.postId == postId && r.userId == uid).isSome
  | none => false

/-- Embeds `postRouter GET /` (auth.ts:378-445): count distinct post ids under
the author/site filter, page through the posts sorted by the requested column,
and annotate each with author and `isUpvoted`. -/
def listPosts (db : DB) (viewer : Option String)
    (authorFilter siteFilter : Option String) (sb : SortBy) (o : SortOrder)
    (page limit : Nat) : List PostView × PageInfo :=
  let filt : Post → Bool := fun p =>
    (match authorFilter with
     | some a => p.userId == a
     | none => true) &&
    (match siteFilter with
     | some s => p.url == some s
     | none => true)
  let offset := (page - 1) * limit
  let count := countDistinctIds ((db.posts.filter filt).map (fun p => p.id))
  let rows := ((sortPosts sb o (db.posts.filter filt)).drop offset).take limit
  let views := rows.map fun p =>
    { post := p, author := findUser db p.userId,
      isUpvoted := postIsUpvoted db viewer p.id }
  (views, { page, totalPages := codeTotalPages count limit })

/-- Embeds `postRouter GET /:id` (auth.ts:665-716): select the post joined
with its author and the viewer's `isUpvoted` projection, 404 "Post not found"
when no row matches. -/
def getPost (db : DB) (viewer : Option String) (id : Nat) :
    Except ApiError PostView :=
  match db.posts.find? (fun p => p.id == id) with
  | none => .error (.notFound "Post not found")
  | some p =>
      .ok { post := p, author := findUser db p.userId,
            isUpvoted := postIsUpvoted db viewer p.id }

/-- Embeds `commentsRouter GET /:id/comments` (auth.ts:270-327): the direct
children of comment `id` (`where parentCommentId = id`), counted distinctly,
sorted, paged, and annotated with the author and viewer-restricted
`commentUpvotes`; no `childComments` are loaded by this listing. -/
def listChildren (db : DB) (viewer : Option String) (id : Nat) (sb : SortBy)
    (o : SortOrder) (page limit : Nat) : List CommentView × PageInfo :=
  let offset := (page - 1) * limit
  let matching := db.comments.filter fun c => c.parentCommentId == some id
  let count := countDistinctIds (matching.map fun c => c.id)
  let rows := ((sortComments sb o matching).drop offset).take limit
  let views := rows.map fun c =>
    { comment := c, author := findUser db c.userId,
      commentUpvotes := viewerUpvoteRows db viewer c.id }
  (views, { page, totalPages := codeTotalPages count limit })

/-- Embeds `postRouter GET /:id/comments` (auth.ts:559-664) exactly as
written: the handler first selects `1` from the posts table for the given id
and throws 404 "Post not found" when that probe RETURNS a row (auth.ts:581
tests `if (postExists)`, not `if (!postExists)`); otherwise it lists the
top-level comments of the post (`postId = id` and `parentCommentId IS NULL`),
sorted and paged, each annotated with author, viewer-restricted
`commentUpvotes`, and `childComments` limited to 2 rows when
`includeChildren` is set and to 0 rows otherwise, ordered by the same sort. -/
def listTopLevelForPost (db : DB) (viewer : Option String) (id : Nat)
    (sb : SortBy) (o : SortOrder) (page limit : Nat) (includeChildren : Bool) :
    Except ApiError (List CommentView × PageInfo) :=
  let postExists := (db.posts.find? fun p => p.id == id).isSome
  if postExists then
    .error (.notFound "Post not found")
  else
    let offset := (page - 1) * limit
    let matching := db.comments.filter fun c =>
      c.postId == id && c.parentCommentId.isNone
    let count := countDistinctIds (matching.map fun c => c.id)
    let rows := ((sortComments sb o matching).drop offset).take limit
    let views := rows.map fun c =>
      { comment := c, author := findUser db c.userId,
        commentUpvotes := viewerUpvoteRows db viewer c.id,
        childComments :=
          ((sortComments sb o
              (db.comments.filter fun ch =>
                ch.parentCommentId == some c.id)).take
            (if includeChildren then 2 else 0)).map fun ch =>
            { comment := ch, author := findUser db ch.userId,
              commentUpvotes := viewerUpvoteRows db viewer ch.id } }
    .ok (views, { page, totalPages := codeTotalPages count limit })

/-- At most one `PostUpvote` row per `(userId, postId)` pair and at most one
`CommentUpvote` row per `(userId, commentId)` pair. -/
def UpvoteUnique (db : DB) : Prop :=
  db.postUpvotes.Pairwise
    (fun a b => ¬(a.userId = b.userId ∧ a.postId = b.postId)) ∧
  db.commentUpvotes.Pairwise
    (fun a b => ¬(a.userId = b.userId ∧ a.commentId = b.commentId))

instance (db : DB) : Decidable (UpvoteUnique db) := by
  unfold UpvoteUnique
  exact inferInstance

/-- Two sequential `POST /:id/upvote` calls on the same post by the same
user, the second running on the state left by the first. -/
def toggleTwicePost (db : DB) (id : Nat) (userId : String) :
    Except ApiError (DB × Int × Bool) :=
  match togglePostUpvote db id userId with
  | .error e => .error e
  | .ok (db1, _, _) => togglePostUpvote db1 id userId

/-- Two sequential comment-upvote toggles for the same (user, comment). -/
def toggleTwiceComment (db : DB) (id : Nat) (userId : String) :
    Except ApiError (DB × Int × List String) :=
  match toggleCommentUpvote db id userId with
  | .error e => .error e
  | .ok (db1, _, _) => toggleCommentUpvote db1 id userId

/-- Modelled from the spec: the pagination contract
`totalPages = ceil(totalCount / limit)` (spec §6), the evidently-intended
formula that §9 says the observed `Math.ceil(count || 0 / limit)` expression
was meant to compute. -/
def specTotalPages (count limit : Nat) : Nat :=
  (count + limit - 1) / limit

/-- What "each returned comment carries at most 2 of its direct children,
same sort order, same vote annotation" means for one item of the top-level
listing: children preview off loads no child rows; at most two children are
carried, and with the preview on exactly min 2 (number of direct children)
of them; every carried child is a stored direct child of the item; a
child's upvote annotation is exactly the requesting viewer's own upvote
state — sound (every entry names the viewer and is backed by a stored row)
and complete (a stored upvote row of the viewer on that child forces the
singleton annotation); and the carried children are ordered by the
requested sort. -/
def ChildPreviewOk (db : DB) (viewer : Option String) (sb : SortBy)
    (o : SortOrder) (includeChildren : Bool) (v : CommentView) : Prop :=
  (includeChildren = false → v.childComments = []) ∧
  v.childComments.length ≤ 2 ∧
  (includeChildren = true →
    v.childComments.length =
      min 2 (db.comments.filter fun e =>
        e.parentCommentId == some v.comment.id).length) ∧
  (∀ ch ∈ v.childComments,
      ch.comment ∈ db.comments ∧
      ch.comment.parentCommentId = some v.comment.id ∧
      (∀ u ∈ ch.commentUpvotes,
        u = viewer.getD "" ∧
        ∃ r ∈ db.commentUpvotes,
          r.commentId = ch.comment.id ∧ r.userId = u) ∧
      (∀ r ∈ db.commentUpvotes, r.commentId = ch.comment.id →
        r.userId = viewer.getD "" →
        ch.commentUpvotes = [viewer.getD ""])) ∧
  (v.childComments.map fun ch => ch.comment).Pairwise (commentLe sb o)

/-- Fixture: the empty store. -/
def dbEmpty : DB := {}

/-- Fixture: one author, one post, one top-level comment on it. -/
def dbBase : DB :=
  { users := [{ id := "alice", username := "Alice" }],
    posts := [{ id := 1, userId := "alice", title := "hello", points := 3 }],
    comments := [{ id := 1, userId := "alice", postId := 1,
                   content := "first" }],
    nextPostId := 2,
    nextCommentId := 2 }

/-- Fixture: a post and a comment that the user `bob` has already upvoted. -/
def dbUpvoted : DB :=
  { posts := [{ id := 1, userId := "alice", title := "hello", points := 1 }],
    comments := [{ id := 1, userId := "alice", postId := 1,
                   content := "first", points := 1 }],
    postUpvotes := [{ id := 1, userId := "bob", postId := 1 }],
    commentUpvotes := [{ id := 1, userId := "bob", commentId := 1 }],
    nextPostUpvoteId := 2,
    nextCommentUpvoteId := 2 }

/-- Fixture: five posts and nothing else, for exercising pagination. -/
def dbFivePosts : DB :=
  { posts := [{ id := 1, userId := "a" }, { id := 2, userId := "a" },
              { id := 3, userId := "a" }, { id := 4, userId := "a" },
              { id := 5, userId := "a" }],
    nextPostId := 6 }

/-- Fixture: comments attached to post id 1 while no post row with id 1
exists, plus an upvote by `bob` on one child; exercises the top-level listing
on the only ids its success path can reach. -/
def dbOrphanThread : DB :=
  { comments := [{ id := 1, userId := "alice", postId := 1,
                   content := "top" },
                 { id := 2, userId := "bob", postId := 1,
                   parentCommentId := some 1, content := "child a",
                   depth := 1, points := 7 },
                 { id := 3, userId := "alice", postId := 1,
                   parentCommentId := some 1, content := "child b",
                   depth := 1, points := 5 },
                 { id := 4, userId := "bob", postId := 1,
                   parentCommentId := some 1, content := "child c",
                   depth := 1, points := 6 }],
    commentUpvotes := [{ id := 1, userId := "bob", commentId := 2 }],
    nextCommentId := 5,
    nextCommentUpvoteId := 2 }

/-- `find?` commutes with a rewriting `map` whose function does not change
the predicate's verdict (in the model: an `UPDATE` keyed on a column the
`SET` clause leaves untouched does not move which row a lookup finds). -/
theorem find?_map_pred_stable {α : Type} (f : α → α) (p : α → Bool)
    (l : List α) (hf : ∀ a, p (f a) = p a) :
    (l.map f).find? p = (l.find? p).map f := by
  have hpf : p ∘ f = p := funext hf
  rw [List.find?_map, hpf]

/-- A `find?` that succeeds on a prefix succeeds on the whole list. -/
theorem find?_append_some {α : Type} {l₁ : List α} (l₂ : List α)
    {p : α → Bool} {a : α} (h : l₁.find? p = some a) :
    (l₁ ++ l₂).find? p = some a := by
  induction l₁ with
  | nil => simp at h
  | cons x t ih =>
      rw [List.cons_append]
      cases hx : p x with
      | true => rwa [List.find?_cons_of_pos _ hx] at h ⊢
      | false =>
          rw [List.find?_cons_of_neg _ (by simp [hx])] at h ⊢
          exact ih h

/-- A `find?` that fails on a prefix continues on the suffix. -/
theorem find?_append_none {α : Type} {l₁ : List α} (l₂ : List α)
    {p : α → Bool} (h : l₁.find? p = none) :
    (l₁ ++ l₂).find? p = l₂.find? p := by
  induction l₁ with
  | nil => simp
  | cons x t ih =>
      rw [List.cons_append]
      cases hx : p x with
      | true => rw [List.find?_cons_of_pos _ hx] at h; exact absurd h (by simp)
      | false =>
          rw [List.find?_cons_of_neg _ (by simp [hx])] at h ⊢
          exact ih h

/-- C4: toggling an upvote on an id that refers to no existing post
(respectively comment) fails with NotFound, and the state is unchanged: the
transaction commits nothing, so no upvote row is inserted or deleted and no
points counter moves. -/
theorem toggleUpvote_missing_entity (db : DB) (id : Nat) (userId : String) :
    (db.posts.find? (fun p => p.id == id) = none →
      togglePostUpvote db id userId = .error (.notFound "Post not Found") ∧
      step db (.togglePostUpvote id userId) = db) ∧
    (db.comments.find? (fun c => c.id == id) = none →
      toggleCommentUpvote db id userId = .error (.notFound "Comment not found") ∧
      step db (.toggleCommentUpvote id userId) = db) := by
  constructor
  · intro h
    have he : togglePostUpvote db id userId =
        .error (.notFound "Post not Found") := by
      unfold togglePostUpvote
      rw [h]
    refine ⟨he, ?_⟩
    simp only [step, he]
  · intro h
    have he : toggleCommentUpvote db id userId =
        .error (.notFound "Comment not found") := by
      unfold toggleCommentUpvote
      rw [h]
    refine ⟨he, ?_⟩
    simp only [step, he]

/-- Witness for C4 at the empty store and id 1. -/
theorem toggleUpvote_missing_entity_witness :
    (togglePostUpvote dbEmpty 1 "bob" = .error (.notFound "Post not Found") ∧
     step dbEmpty (.togglePostUpvote 1 "bob") = dbEmpty) ∧
    (toggleCommentUpvote dbEmpty 1 "bob" =
       .error (.notFound "Comment not found") ∧
     step dbEmpty (.toggleCommentUpvote 1 "bob") = dbEmpty) :=
  ⟨(toggleUpvote_missing_entity dbEmpty 1 "bob").1 rfl,
   (toggleUpvote_missing_entity dbEmpty 1 "bob").2 rfl⟩

/-- C2: toggling an upvote on an existing post (respectively comment) applies
delta -1 when an upvote row for the (user, entity) pair exists and +1
otherwise, deletes respectively inserts the row, leaves the other tables
alone, and returns the post-update points counter together with the
resulting vote state (true / a singleton annotation exactly when a row was
inserted). -/
theorem toggleUpvote_spec (db : DB) (id : Nat) (userId : String) :
    (∀ p, db.posts.find? (fun q => q.id == id) = some p →
      (∀ u, db.postUpvotes.find?
            (fun v => v.postId == id && v.userId == userId) = some u →
        ∃ db1, togglePostUpvote db id userId =
            .ok (db1, p.points + (-1), false) ∧
          db1.posts.find? (fun q => q.id == id) =
            some { p with points := p.points + (-1) } ∧
          u ∉ db1.postUpvotes ∧
          (∀ v ∈ db1.postUpvotes, v ∈ db.postUpvotes) ∧
          db1.comments = db.comments ∧
          db1.commentUpvotes = db.commentUpvotes) ∧
      (db.postUpvotes.find?
            (fun v => v.postId == id && v.userId == userId) = none →
        ∃ db1, togglePostUpvote db id userId =
            .ok (db1, p.points + 1, true) ∧
          db1.posts.find? (fun q => q.id == id) =
            some { p with points := p.points + 1 } ∧
          (∃ w ∈ db1.postUpvotes, w.userId = userId ∧ w.postId = id) ∧
          (∀ v ∈ db.postUpvotes, v ∈ db1.postUpvotes) ∧
          db1.comments = db.comments ∧
          db1.commentUpvotes = db.commentUpvotes)) ∧
    (∀ c, db.comments.find? (fun d => d.id == id) = some c →
      (∀ u, db.commentUpvotes.find?
            (fun v => v.commentId == id && v.userId == userId) = some u →
        ∃ db1, toggleCommentUpvote db id userId =
            .ok (db1, c.points + (-1), []) ∧
          db1.comments.find? (fun d => d.id == id) =
            some { c with points := c.points + (-1) } ∧
          u ∉ db1.commentUpvotes ∧
          (∀ v ∈ db1.commentUpvotes, v ∈ db.commentUpvotes) ∧
          db1.posts = db.posts ∧
          db1.postUpvotes = db.postUpvotes) ∧
      (db.commentUpvotes.find?
            (fun v => v.commentId == id && v.userId == userId) = none →
        ∃ db1, toggleCommentUpvote db id userId =
            .ok (db1, c.points + 1, [userId]) ∧
          db1.comments.find? (fun d => d.id == id) =
            some { c with points := c.points + 1 } ∧
          (∃ w ∈ db1.commentUpvotes, w.userId = userId ∧ w.commentId = id) ∧
          (∀ v ∈ db.commentUpvotes, v ∈ db1.commentUpvotes) ∧
          db1.posts = db.posts ∧
          db1.postUpvotes = db.postUpvotes)) := by
  constructor
  · intro p hp
    have hpid : (p.id == id) = true := by simpa using List.find?_some hp
    constructor
    · intro u hu
      have he : togglePostUpvote db id userId =
          .ok ({ db with
                 posts := db.posts.map fun q =>
                   if q.id == id then
                     { q with points := q.points + (-1) }
                   else q,
                 postUpvotes := db.postUpvotes.filter fun v =>
                   v.id != u.id },
               p.points + (-1), false) := by
        unfold togglePostUpvote
        rw [hu, hp]
        rfl
      refine ⟨_, he, ?_, ?_, ?_, rfl, rfl⟩
      · dsimp only
        rw [find?_map_pred_stable _ _ _ (fun a => by
          by_cases h : (a.id == id) = true <;> simp [h]), hp]
        simp only [Option.map_some']
        rw [if_pos hpid]
      · simp [List.mem_filter]
      · intro v hv
        exact List.mem_of_mem_filter hv
    · intro hu
      have he : togglePostUpvote db id userId =
          .ok ({ db with
                 posts := db.posts.map fun q =>
                   if q.id == id then { q with points := q.points + 1 }
                   else q,
                 postUpvotes := db.postUpvotes ++
                   [{ id := db.nextPostUpvoteId, userId, postId := id,
                      createdAt := db.now }],
                 nextPostUpvoteId := db.nextPostUpvoteId + 1 },
               p.points + 1, true) := by
        unfold togglePostUpvote
        rw [hu, hp]
        rfl
      refine ⟨_, he, ?_, ?_, ?_, rfl, rfl⟩
      · dsimp only
        rw [find?_map_pred_stable _ _ _ (fun a => by
          by_cases h : (a.id == id) = true <;> simp [h]), hp]
        simp only [Option.map_some']
        rw [if_pos hpid]
      · exact ⟨_, List.mem_append_right _ (List.mem_singleton_self _),
          rfl, rfl⟩
      · intro v hv
        exact List.mem_append_left _ hv
  · intro c hc
    have hcid : (c.id == id) = true := by simpa using List.find?_some hc
    constructor
    · intro u hu
      have he : toggleCommentUpvote db id userId =
          .ok ({ db with
                 comments := db.comments.map fun d =>
                   if d.id == id then
                     { d with points := d.points + (-1) }
                   else d,
                 commentUpvotes := db.commentUpvotes.filter fun v =>
                   v.id != u.id },
               c.points + (-1), []) := by
        unfold toggleCommentUpvote
        rw [hu, hc]
        rfl
      refine ⟨_, he, ?_, ?_, ?_, rfl, rfl⟩
      · dsimp only
        rw [find?_map_pred_stable _ _ _ (fun a => by
          by_cases h : (a.id == id) = true <;> simp [h]), hc]
        simp only [Option.map_some']
        rw [if_pos hcid]
      · simp [List.mem_filter]
      · intro v hv
        exact List.mem_of_mem_filter hv
    · intro hu
      have he : toggleCommentUpvote db id userId =
          .ok ({ db with
                 comments := db.comments.map fun d =>
                   if d.id == id then { d with points := d.points + 1 }
                   else d,
                 commentUpvotes := db.commentUpvotes ++
                   [{ id := db.nextCommentUpvoteId, userId,
                      commentId := id, createdAt := db.now }],
                 nextCommentUpvoteId := db.nextCommentUpvoteId + 1 },
               c.points + 1, [userId]) := by
        unfold toggleCommentUpvote
        rw [hu, hc]
        rfl
      refine ⟨_, he, ?_, ?_, ?_, rfl, rfl⟩
      · dsimp only
        rw [find?_map_pred_stable _ _ _ (fun a => by
          by_cases h : (a.id == id) = true <;> simp [h]), hc]
        simp only [Option.map_some']
        rw [if_pos hcid]
      · exact ⟨_, List.mem_append_right _ (List.mem_singleton_self _),
          rfl, rfl⟩
      · intro v hv
        exact List.mem_append_left _ hv

/-- Witness for C2: `bob` removes his existing upvote from post 1 of
`dbUpvoted`. -/
theorem toggleUpvote_spec_witness :
    ∃ db1, togglePostUpvote dbUpvoted 1 "bob" =
        .ok (db1, (1 : Int) + (-1), false) ∧
      db1.posts.find? (fun q => q.id == 1) =
        some { id := 1, userId := "alice", title := "hello",
               points := (1 : Int) + (-1) } ∧
      ({ id := 1, userId := "bob", postId := 1 } : PostUpvoteRow) ∉
        db1.postUpvotes ∧
      (∀ v ∈ db1.postUpvotes, v ∈ dbUpvoted.postUpvotes) ∧
      db1.comments = dbUpvoted.comments ∧
      db1.commentUpvotes = dbUpvoted.commentUpvotes :=
  ((toggleUpvote_spec dbUpvoted 1 "bob").1
      { id := 1, userId := "alice", title := "hello", points := 1 } rfl).1
    { id := 1, userId := "bob", postId := 1 } rfl

/-- C3 counterexample: in `dbUpvoted`, `bob` has already upvoted post 1
(points 1). Toggling twice does return the original point total 1, but the
second call reports `isUpvoted = true` — adding the vote back — not the
`isUpvoted = false` the claim demands for every existing entity. -/
theorem toggleTwice_initially_upvoted_counterexample :
    (toggleTwicePost dbUpvoted 1 "bob").toOption.map
      (fun r => (r.2.1, r.2.2)) = some ((1 : Int), true) := by
  decide

/-- C3 amended: for a (user, entity) pair with no pre-existing upvote row,
toggling twice in sequence restores the entity's points to the original
value and the second call reports the vote as removed (`isUpvoted = false`
for posts, an empty annotation for comments). -/
theorem toggleUpvote_pairing (db : DB) (id : Nat) (userId : String) :
    (∀ p, db.posts.find? (fun q => q.id == id) = some p →
      db.postUpvotes.find?
          (fun v => v.postId == id && v.userId == userId) = none →
      ∃ db2, toggleTwicePost db id userId = .ok (db2, p.points, false) ∧
        db2.posts.find? (fun q => q.id == id) = some p) ∧
    (∀ c, db.comments.find? (fun d => d.id == id) = some c →
      db.commentUpvotes.find?
          (fun v => v.commentId == id && v.userId == userId) = none →
      ∃ db2, toggleTwiceComment db id userId = .ok (db2, c.points, []) ∧
        db2.comments.find? (fun d => d.id == id) = some c) := by
  constructor
  · intro p hp hnone
    have hpid : (p.id == id) = true := by simpa using List.find?_some hp
    have he1 : togglePostUpvote db id userId =
        .ok ({ db with
               posts := db.posts.map fun q =>
                 if q.id == id then { q with points := q.points + 1 }
                 else q,
               postUpvotes := db.postUpvotes ++
                 [{ id := db.nextPostUpvoteId, userId, postId := id,
                    createdAt := db.now }],
               nextPostUpvoteId := db.nextPostUpvoteId + 1 },
             p.points + 1, true) := by
      unfold togglePostUpvote
      rw [hnone, hp]
      rfl
    have hstable : ∀ a : Post,
        ((if a.id == id then { a with points := a.points + 1 }
          else a).id == id) = (a.id == id) := fun a => by
      by_cases h : (a.id == id) = true <;> simp [h]
    have hp2 : (db.posts.map fun q =>
        if q.id == id then { q with points := q.points + 1 }
        else q).find? (fun q => q.id == id) =
          some { p with points := p.points + 1 } := by
      rw [find?_map_pred_stable _ _ _ hstable, hp]
      simp only [Option.map_some']
      rw [if_pos hpid]
    have hu2 : (db.postUpvotes ++
        [({ id := db.nextPostUpvoteId, userId, postId := id,
            createdAt := db.now } : PostUpvoteRow)]).find?
          (fun v => v.postId == id && v.userId == userId) =
        some { id := db.nextPostUpvoteId, userId, postId := id,
               createdAt := db.now } := by
      rw [find?_append_none _ hnone]
      simp
    have he2 : togglePostUpvote
        { db with
          posts := db.posts.map fun q =>
            if q.id == id then { q with points := q.points + 1 }
            else q,
          postUpvotes := db.postUpvotes ++
            [{ id := db.nextPostUpvoteId, userId, postId := id,
               createdAt := db.now }],
          nextPostUpvoteId := db.nextPostUpvoteId + 1 } id userId =
        .ok ({ db with
               posts := (db.posts.map fun q =>
                 if q.id == id then { q with points := q.points + 1 }
                 else q).map fun q =>
                   if q.id == id then { q with points := q.points + (-1) }
                   else q,
               postUpvotes := (db.postUpvotes ++
                 [({ id := db.nextPostUpvoteId, userId, postId := id,
                     createdAt := db.now } : PostUpvoteRow)]).filter fun v =>
                   v.id != db.nextPostUpvoteId,
               nextPostUpvoteId := db.nextPostUpvoteId + 1 },
             p.points + 1 + (-1), false) := by
      unfold togglePostUpvote
      rw [hu2, hp2]
      rfl
    have hpoints : p.points + 1 + (-1) = p.points := by ring
    rw [hpoints] at he2
    refine ⟨_, by unfold toggleTwicePost; rw [he1]; exact he2, ?_⟩
    dsimp only
    rw [find?_map_pred_stable _ _ _ (fun a => by
          by_cases h : (a.id == id) = true <;> simp [h]),
        find?_map_pred_stable _ _ _ hstable, hp]
    simp only [Option.map_some']
    rw [if_pos hpid, if_pos hpid]
    rw [hpoints]
  · intro c hc hnone
    have hcid : (c.id == id) = true := by simpa using List.find?_some hc
    have he1 : toggleCommentUpvote db id userId =
        .ok ({ db with
               comments := db.comments.map fun d =>
                 if d.id == id then { d with points := d.points + 1 }
                 else d,
               commentUpvotes := db.commentUpvotes ++
                 [{ id := db.nextCommentUpvoteId, userId, commentId := id,
                    createdAt := db.now }],
               nextCommentUpvoteId := db.nextCommentUpvoteId + 1 },
             c.points + 1, [userId]) := by
      unfold toggleCommentUpvote
      rw [hnone, hc]
      rfl
    have hstable : ∀ a : CommentRow,
        ((if a.id == id then { a with points := a.points + 1 }
          else a).id == id) = (a.id == id) := fun a => by
      by_cases h : (a.id == id) = true <;> simp [h]
    have hc2 : (db.comments.map fun d =>
        if d.id == id then { d with points := d.points + 1 }
        else d).find? (fun d => d.id == id) =
          some { c with points := c.points + 1 } := by
      rw [find?_map_pred_stable _ _ _ hstable, hc]
      simp only [Option.map_some']
      rw [if_pos hcid]
    have hu2 : (db.commentUpvotes ++
        [({ id := db.nextCommentUpvoteId, userId, commentId := id,
            createdAt := db.now } : CommentUpvoteRow)]).find?
          (fun v => v.commentId == id && v.userId == userId) =
        some { id := db.nextCommentUpvoteId, userId, commentId := id,
               createdAt := db.now } := by
      rw [find?_append_none _ hnone]
      simp
    have he2 : toggleCommentUpvote
        { db with
          comments := db.comments.map fun d =>
            if d.id == id then { d with points := d.points + 1 }
            else d,
          commentUpvotes := db.commentUpvotes ++
            [{ id := db.nextCommentUpvoteId, userId, commentId := id,
               createdAt := db.now }],
          nextCommentUpvoteId := db.nextCommentUpvoteId + 1 } id userId =
        .ok ({ db with
               comments := (db.comments.map fun d =>
                 if d.id == id then { d with points := d.points + 1 }
                 else d).map fun d =>
                   if d.id == id then { d with points := d.points + (-1) }
                   else d,
               commentUpvotes := (db.commentUpvotes ++
                 [({ id := db.nextCommentUpvoteId, userId, commentId := id,
                     createdAt := db.now } : CommentUpvoteRow)]).filter fun v =>
                   v.id != db.nextCommentUpvoteId,
               nextCommentUpvoteId := db.nextCommentUpvoteId + 1 },
             c.points + 1 + (-1), []) := by
      unfold toggleCommentUpvote
      rw [hu2, hc2]
      rfl
    have hpoints : c.points + 1 + (-1) = c.points := by ring
    rw [hpoints] at he2
    refine ⟨_, by unfold toggleTwiceComment; rw [he1]; exact he2, ?_⟩
    dsimp only
    rw [find?_map_pred_stable _ _ _ (fun a => by
          by_cases h : (a.id == id) = true <;> simp [h]),
        find?_map_pred_stable _ _ _ hstable, hc]
    simp only [Option.map_some']
    rw [if_pos hcid, if_pos hcid]
    rw [hpoints]

/-- Witness for C3 (amended): `bob` toggles twice on post 1 and comment 1 of
`dbBase`, where he holds no upvote row. -/
theorem toggleUpvote_pairing_witness :
    (∃ db2, toggleTwicePost dbBase 1 "bob" = .ok (db2, (3 : Int), false) ∧
      db2.posts.find? (fun q => q.id == 1) =
        some { id := 1, userId := "alice", title := "hello",
               points := 3 }) ∧
    (∃ db2, toggleTwiceComment dbBase 1 "bob" = .ok (db2, (0 : Int), []) ∧
      db2.comments.find? (fun d => d.id == 1) =
        some { id := 1, userId := "alice", postId := 1,
               content := "first" }) :=
  ⟨(toggleUpvote_pairing dbBase 1 "bob").1
      { id := 1, userId := "alice", title := "hello", points := 3 } rfl rfl,
   (toggleUpvote_pairing dbBase 1 "bob").2
      { id := 1, userId := "alice", postId := 1, content := "first" }
      rfl rfl⟩

/-- C1: replying to an existing parent comment (whose owning post row
exists) is one atomic operation that bumps the parent's `commentCount` and
the owning post's `commentCount` by 1 and inserts a comment with
`parentCommentId = parent.id`, `depth = parent.depth + 1` and
`postId = parent.postId`, returning the created comment; a missing parent
yields NotFound and commits nothing. -/
theorem createReply_spec (db : DB) (id : Nat) (userId content : String) :
    (∀ parent, db.comments.find? (fun c => c.id == id) = some parent →
      ∀ post, db.posts.find? (fun p => p.id == parent.postId) = some post →
      ∃ db1 newComment,
        createReply db id userId content = .ok (db1, newComment) ∧
        newComment.parentCommentId = some parent.id ∧
        newComment.depth = parent.depth + 1 ∧
        newComment.postId = parent.postId ∧
        newComment ∈ db1.comments ∧
        db1.comments.find? (fun c => c.id == id) =
          some { parent with commentCount := parent.commentCount + 1 } ∧
        db1.posts.find? (fun p => p.id == parent.postId) =
          some { post with commentCount := post.commentCount + 1 } ∧
        db1.postUpvotes = db.postUpvotes ∧
        db1.commentUpvotes = db.commentUpvotes) ∧
    (db.comments.find? (fun c => c.id == id) = none →
      createReply db id userId content =
        .error (.notFound "Comment not found") ∧
      step db (.createReply id userId content) = db) := by
  constructor
  · intro parent hp post hpost
    have hpid : (parent.id == id) = true := by simpa using List.find?_some hp
    have hself : (parent.id == parent.id) = true := by simp
    have hpostid : (post.id == parent.postId) = true := by
      simpa using List.find?_some hpost
    have he : createReply db id userId content =
        .ok ({ db with
               posts := db.posts.map fun p =>
                 if p.id == parent.postId then
                   { p with commentCount := p.commentCount + 1 }
                 else p,
               comments := (db.comments.map fun c =>
                 if c.id == parent.id then
                   { c with commentCount := c.commentCount + 1 }
                 else c) ++
                 [{ id := db.nextCommentId, userId,
                    postId := parent.postId,
                    parentCommentId := some parent.id, content,
                    depth := parent.depth + 1, createdAt := db.now }],
               nextCommentId := db.nextCommentId + 1 },
             { id := db.nextCommentId, userId, postId := parent.postId,
               parentCommentId := some parent.id, content,
               depth := parent.depth + 1, createdAt := db.now }) := by
      unfold createReply
      rw [hp]
      dsimp only
      rw [hpost]
    refine ⟨_, _, he, rfl, rfl, rfl, ?_, ?_, ?_, rfl, rfl⟩
    · exact List.mem_append_right _ (List.mem_singleton_self _)
    · dsimp only
      refine find?_append_some _ ?_
      rw [find?_map_pred_stable _ _ _ (fun a => by
            by_cases h : (a.id == parent.id) = true <;> simp [h]), hp]
      simp only [Option.map_some']
      rw [if_pos hself]
    · dsimp only
      rw [find?_map_pred_stable _ _ _ (fun a => by
            by_cases h : (a.id == parent.postId) = true <;> simp [h]),
          hpost]
      simp only [Option.map_some']
      rw [if_pos hpostid]
  · intro h
    have he : createReply db id userId content =
        .error (.notFound "Comment not found") := by
      unfold createReply
      rw [h]
    exact ⟨he, by simp only [step, he]⟩

/-- Witness for C1: `bob` replies to comment 1 of `dbBase`. -/
theorem createReply_spec_witness :
    ∃ db1 newComment,
      createReply dbBase 1 "bob" "yo" = .ok (db1, newComment) ∧
      newComment.parentCommentId = some 1 ∧
      newComment.depth = (0 : Int) + 1 ∧
      newComment.postId = 1 ∧
      newComment ∈ db1.comments ∧
      db1.comments.find? (fun c => c.id == 1) =
        some { id := 1, userId := "alice", postId := 1, content := "first",
               commentCount := (0 : Int) + 1 } ∧
      db1.posts.find? (fun p => p.id == 1) =
        some { id := 1, userId := "alice", title := "hello", points := 3,
               commentCount := (0 : Int) + 1 } ∧
      db1.postUpvotes = dbBase.postUpvotes ∧
      db1.commentUpvotes = dbBase.commentUpvotes :=
  (createReply_spec dbBase 1 "bob" "yo").1
    { id := 1, userId := "alice", postId := 1, content := "first" } rfl
    { id := 1, userId := "alice", title := "hello", points := 3 } rfl

/-- C5: creating a top-level comment on an existing post is one atomic
operation that bumps the post's `commentCount` by 1 and inserts a comment
with `parentCommentId = null`, `depth = 0` and that post's id, returning
the created comment; a missing post yields NotFound and commits nothing. -/
theorem createTopLevelComment_spec (db : DB) (id : Nat)
    (userId content : String) :
    (∀ post, db.posts.find? (fun p => p.id == id) = some post →
      ∃ db1 newComment,
        createTopLevelComment db id userId content = .ok (db1, newComment) ∧
        newComment.parentCommentId = none ∧
        newComment.depth = 0 ∧
        newComment.postId = id ∧
        newComment.points = 0 ∧
        newComment.commentCount = 0 ∧
        newComment ∈ db1.comments ∧
        (∀ c ∈ db.comments, c ∈ db1.comments) ∧
        db1.posts.find? (fun p => p.id == id) =
          some { post with commentCount := post.commentCount + 1 } ∧
        db1.postUpvotes = db.postUpvotes ∧
        db1.commentUpvotes = db.commentUpvotes) ∧
    (db.posts.find? (fun p => p.id == id) = none →
      createTopLevelComment db id userId content =
        .error (.notFound "Post not found") ∧
      step db (.createTopLevelComment id userId content) = db) := by
  constructor
  · intro post hpost
    have hpid : (post.id == id) = true := by
      simpa using List.find?_some hpost
    have he : createTopLevelComment db id userId content =
        .ok ({ db with
               posts := db.posts.map fun p =>
                 if p.id == id then
                   { p with commentCount := p.commentCount + 1 }
                 else p,
               comments := db.comments ++
                 [{ id := db.nextCommentId, userId, postId := id, content,
                    createdAt := db.now }],
               nextCommentId := db.nextCommentId + 1 },
             { id := db.nextCommentId, userId, postId := id, content,
               createdAt := db.now }) := by
      unfold createTopLevelComment
      rw [hpost]
    refine ⟨_, _, he, rfl, rfl, rfl, rfl, rfl, ?_, ?_, ?_, rfl, rfl⟩
    · exact List.mem_append_right _ (List.mem_singleton_self _)
    · intro c hc
      exact List.mem_append_left _ hc
    · dsimp only
      rw [find?_map_pred_stable _ _ _ (fun a => by
            by_cases h : (a.id == id) = true <;> simp [h]), hpost]
      simp only [Option.map_some']
      rw [if_pos hpid]
  · intro h
    have he : createTopLevelComment db id userId content =
        .error (.notFound "Post not found") := by
      unfold createTopLevelComment
      rw [h]
    exact ⟨he, by simp only [step, he]⟩

/-- Witness for C5: `bob` comments on post 1 of `dbBase`. -/
theorem createTopLevelComment_spec_witness :
    ∃ db1 newComment,
      createTopLevelComment dbBase 1 "bob" "hi" = .ok (db1, newComment) ∧
      newComment.parentCommentId = none ∧
      newComment.depth = 0 ∧
      newComment.postId = 1 ∧
      newComment.points = 0 ∧
      newComment.commentCount = 0 ∧
      newComment ∈ db1.comments ∧
      (∀ c ∈ dbBase.comments, c ∈ db1.comments) ∧
      db1.posts.find? (fun p => p.id == 1) =
        some { id := 1, userId := "alice", title := "hello", points := 3,
               commentCount := (0 : Int) + 1 } ∧
      db1.postUpvotes = dbBase.postUpvotes ∧
      db1.commentUpvotes = dbBase.commentUpvotes :=
  (createTopLevelComment_spec dbBase 1 "bob" "hi").1
    { id := 1, userId := "alice", title := "hello", points := 3 } rfl

/-- Each single operation preserves the per-pair uniqueness of the upvote
tables: writers never touch them except the toggles, which insert only after
finding no row for the pair and delete by primary key. -/
theorem step_preserves_upvoteUnique (db : DB) (op : Op)
    (h : UpvoteUnique db) : UpvoteUnique (step db op) := by
  cases op with
  | createPost u t c l => exact h
  | createTopLevelComment p u c =>
      unfold step createTopLevelComment
      cases hf : db.posts.find? fun q => q.id == p with
      | none => simp only [hf]; exact h
      | some post => simp only [hf]; exact h
  | createReply p u c =>
      unfold step createReply
      cases hf : db.comments.find? fun q => q.id == p with
      | none => simp only [hf]; exact h
      | some parent =>
          simp only [hf]
          cases hf2 : db.posts.find? fun q => q.id == parent.postId with
          | none => simp only [hf2]; exact h
          | some post => simp only [hf2]; exact h
  | togglePostUpvote p u =>
      unfold step togglePostUpvote
      cases hfp : db.posts.find? fun q => q.id == p with
      | none => simp only [hfp]; exact h
      | some post =>
          cases hfu : db.postUpvotes.find?
              (fun v => v.postId == p && v.userId == u) with
          | some row => simp only [hfp, hfu]
                        exact ⟨h.1.sublist (List.filter_sublist _), h.2⟩
          | none =>
              simp only [hfp, hfu]
              refine ⟨List.pairwise_append.mpr ⟨h.1, ?_, ?_⟩, h.2⟩
              · simp
              · intro a ha b hb
                have hnb := List.find?_eq_none.mp hfu a ha
                simp only [List.mem_singleton] at hb
                subst hb
                intro hab
                apply hnb
                simp [hab.1, hab.2]
  | toggleCommentUpvote p u =>
      unfold step toggleCommentUpvote
      cases hfp : db.comments.find? fun q => q.id == p with
      | none => simp only [hfp]; exact h
      | some c =>
          cases hfu : db.commentUpvotes.find?
              (fun v => v.commentId == p && v.userId == u) with
          | some row => simp only [hfp, hfu]
                        exact ⟨h.1, h.2.sublist (List.filter_sublist _)⟩
          | none =>
              simp only [hfp, hfu]
              refine ⟨h.1, List.pairwise_append.mpr ⟨h.2, ?_, ?_⟩⟩
              · simp
              · intro a ha b hb
                have hnb := List.find?_eq_none.mp hfu a ha
                simp only [List.mem_singleton] at hb
                subst hb
                intro hab
                apply hnb
                simp [hab.1, hab.2]

/-- C8: starting from a state with at most one `PostUpvote` row per
(userId, postId) pair and at most one `CommentUpvote` row per
(userId, commentId) pair, every sequence of core operations preserves that
invariant. -/
theorem upvote_uniqueness_invariant (db : DB) (ops : List Op)
    (h : UpvoteUnique db) : UpvoteUnique (run db ops) := by
  induction ops generalizing db with
  | nil => exact h
  | cons op rest ih => exact ih _ (step_preserves_upvoteUnique db op h)

/-- Witness for C8 on a concrete trace over `dbBase`. -/
theorem upvote_uniqueness_invariant_witness :
    UpvoteUnique dbBase ∧
    UpvoteUnique (run dbBase
      [.togglePostUpvote 1 "bob", .toggleCommentUpvote 1 "bob",
       .createReply 1 "carol" "hey", .togglePostUpvote 1 "carol",
       .togglePostUpvote 1 "bob"]) :=
  ⟨by decide, upvote_uniqueness_invariant dbBase _ (by decide)⟩

/-- A stored upvote row of the viewer on a comment forces the singleton
annotation: the relation filter keeps the row, so `take 1` of the projected
user ids is exactly the viewer's id. -/
theorem viewerUpvoteRows_complete (db : DB) (viewer : Option String)
    (cid : Nat) (r : CommentUpvoteRow) (hr : r ∈ db.commentUpvotes)
    (h1 : r.commentId = cid) (h2 : r.userId = viewer.getD "") :
    viewerUpvoteRows db viewer cid = [viewer.getD ""] := by
  unfold viewerUpvoteRows
  have hrf : r ∈ db.commentUpvotes.filter (fun v =>
      v.commentId == cid && v.userId == viewer.getD "") := by
    rw [List.mem_filter]
    exact ⟨hr, by simp [h1, h2]⟩
  cases hl : db.commentUpvotes.filter (fun v =>
      v.commentId == cid && v.userId == viewer.getD "") with
  | nil => rw [hl] at hrf; simp at hrf
  | cons a t =>
      have ha : a ∈ db.commentUpvotes.filter (fun v =>
          v.commentId == cid && v.userId == viewer.getD "") := by
        rw [hl]
        exact List.mem_cons_self a t
      have hpa := List.of_mem_filter ha
      simp only [Bool.and_eq_true, beq_iff_eq] at hpa
      simp [hpa.2]

/-- C9: whenever the top-level listing succeeds, every returned item
satisfies the children-preview contract: no children when the option is off,
exactly min 2 (number of direct children) of the stored direct children
otherwise, each annotated with exactly the requesting user's own upvote
state, and ordered by the requested sort column and order. -/
theorem childrenPreview_spec (db : DB) (viewer : Option String) (id : Nat)
    (sb : SortBy) (o : SortOrder) (page limit : Nat) (ic : Bool)
    (views : List CommentView) (pg : PageInfo)
    (h : listTopLevelForPost db viewer id sb o page limit ic =
      .ok (views, pg)) :
    ∀ v ∈ views, ChildPreviewOk db viewer sb o ic v := by
  unfold listTopLevelForPost at h
  dsimp only at h
  split at h
  · exact absurd h (by simp)
  · rw [Except.ok.injEq, Prod.mk.injEq] at h
    obtain ⟨hviews, hpg⟩ := h
    subst hviews
    intro v hv
    obtain ⟨c, hcrows, rfl⟩ := List.mem_map.mp hv
    refine ⟨?_, ?_, ?_, ?_, ?_⟩
    · intro h0
      subst h0
      simp
    · rw [List.length_map]
      refine le_trans (List.length_take_le _ _) ?_
      cases ic <;> simp
    · intro h1
      subst h1
      simp only [if_true, List.length_map, List.length_take]
      unfold sortComments
      rw [List.length_insertionSort]
    · intro ch hch
      obtain ⟨d, hd, rfl⟩ := List.mem_map.mp hch
      have hd1 : d ∈ sortComments sb o (db.comments.filter fun e =>
          e.parentCommentId == some c.id) := List.mem_of_mem_take hd
      have hd2 : d ∈ db.comments.filter fun e =>
          e.parentCommentId == some c.id :=
        (List.mem_insertionSort (commentLe sb o)).mp hd1
      refine ⟨List.mem_of_mem_filter hd2, ?_, ?_, ?_⟩
      · have := List.of_mem_filter hd2
        simpa using this
      · intro u hu
        unfold viewerUpvoteRows at hu
        have hu1 := List.mem_of_mem_take hu
        obtain ⟨r, hr, rfl⟩ := List.mem_map.mp hu1
        have hrmem := List.mem_of_mem_filter hr
        have hrpred := List.of_mem_filter hr
        simp only [Bool.and_eq_true, beq_iff_eq] at hrpred
        exact ⟨hrpred.2, r, hrmem, hrpred.1, rfl⟩
      · intro r hr h1 h2
        exact viewerUpvoteRows_complete db viewer d.id r hr h1 h2
    · rw [List.map_map]
      refine List.pairwise_map.mpr ?_
      have hs : List.Pairwise (commentLe sb o)
          (sortComments sb o (db.comments.filter fun e =>
            e.parentCommentId == some c.id)) :=
        List.sorted_insertionSort (commentLe sb o) _
      exact hs.sublist (List.take_sublist _ _)

/-- Witness for C9: `bob` lists post 1's top-level comments in
`dbOrphanThread` with the preview enabled; the one returned item carries
exactly its two highest-point children, the first annotated with bob's
upvote. -/
theorem childrenPreview_spec_witness :
    ChildPreviewOk dbOrphanThread (some "bob") .points .desc true
      { comment := { id := 1, userId := "alice", postId := 1,
                     content := "top" },
        author := none,
        commentUpvotes := [],
        childComments :=
          [{ comment := { id := 2, userId := "bob", postId := 1,
                          parentCommentId := some 1, content := "child a",
                          depth := 1, points := 7 },
             author := none, commentUpvotes := ["bob"] },
           { comment := { id := 4, userId := "bob", postId := 1,
                          parentCommentId := some 1, content := "child c",
                          depth := 1, points := 6 },
             author := none, commentUpvotes := [] }] } :=
  childrenPreview_spec dbOrphanThread (some "bob") 1 .points .desc 1 10 true
    [{ comment := { id := 1, userId := "alice", postId := 1,
                    content := "top" },
       author := none,
       commentUpvotes := [],
       childComments :=
         [{ comment := { id := 2, userId := "bob", postId := 1,
                         parentCommentId := some 1, content := "child a",
                         depth := 1, points := 7 },
            author := none, commentUpvotes := ["bob"] },
          { comment := { id := 4, userId := "bob", postId := 1,
                         parentCommentId := some 1, content := "child c",
                         depth := 1, points := 6 },
            author := none, commentUpvotes := [] }] }]
    { page := 1, totalPages := 1 } (by decide) _
    (List.mem_singleton_self _)

/-- C6 (code defect, auth.ts:575-583): the existence probe of
`postRouter GET /:id/comments` is inverted — in `dbBase`, post 1 exists yet
listing its comments throws 404 "Post not found", while listing comments of
the nonexistent post 999 succeeds. -/
theorem listTopLevelForPost_inverted_gate :
    listTopLevelForPost dbBase none 1 .createdAt .asc 1 10 false =
      .error (.notFound "Post not found") ∧
    listTopLevelForPost dbBase none 999 .createdAt .asc 1 10 false =
      .ok ([], { page := 1, totalPages := 0 }) := by
  decide

/-- C7 (code defect, auth.ts:442): with 5 matching posts and limit 2 the
listing reports `totalPages = 5` — `Math.ceil(count || 0 / limit)` divides
only the fallback literal — while the contract `ceil(totalCount / limit)`
gives 3. -/
theorem totalPages_defect :
    (listPosts dbFivePosts none none none .createdAt .asc 1 2).2.totalPages
      = 5 ∧
    specTotalPages 5 2 = 3 := by
  decide

/-- C10: without a requesting user, every post view of the two post reads
carries `isUpvoted = false` and every comment view of the two comment
listings (children included) carries an empty upvote annotation, for any
store whose comment-upvote rows belong to real (non-empty) user ids. -/
theorem anonymous_reads_unannotated (db : DB)
    (h : ∀ r ∈ db.commentUpvotes, r.userId ≠ "") :
    (∀ af sf sb o page limit,
       ∀ v ∈ (listPosts db none af sf sb o page limit).1,
         v.isUpvoted = false) ∧
    (∀ id pv, getPost db none id = .ok pv → pv.isUpvoted = false) ∧
    (∀ id sb o page limit,
       ∀ v ∈ (listChildren db none id sb o page limit).1,
         v.commentUpvotes = []) ∧
    (∀ id sb o page limit ic views pg,
       listTopLevelForPost db none id sb o page limit ic =
         .ok (views, pg) →
       ∀ v ∈ views, v.commentUpvotes = [] ∧
         ∀ ch ∈ v.childComments, ch.commentUpvotes = []) := by
  have hvur : ∀ cid, viewerUpvoteRows db none cid = [] := by
    intro cid
    unfold viewerUpvoteRows
    have hnil : db.commentUpvotes.filter (fun r =>
        r.commentId == cid && r.userId == (none : Option String).getD "") =
          [] := by
      rw [List.filter_eq_nil_iff]
      intro r hr
      simp only [Bool.and_eq_true, beq_iff_eq, not_and]
      intro _
      exact h r hr
    rw [hnil]
    rfl
  refine ⟨?_, ?_, ?_, ?_⟩
  · intro af sf sb o page limit v hv
    unfold listPosts at hv
    dsimp only at hv
    obtain ⟨p, hp, rfl⟩ := List.mem_map.mp hv
    rfl
  · intro id pv hpv
    unfold getPost at hpv
    cases hf : db.posts.find? (fun p => p.id == id) with
    | none => rw [hf] at hpv; exact absurd hpv (by simp)
    | some p =>
        rw [hf] at hpv
        rw [Except.ok.injEq] at hpv
        subst hpv
        rfl
  · intro id sb o page limit v hv
    unfold listChildren at hv
    dsimp only at hv
    obtain ⟨c, hc, rfl⟩ := List.mem_map.mp hv
    exact hvur c.id
  · intro id sb o page limit ic views pg hok v hv
    unfold listTopLevelForPost at hok
    dsimp only at hok
    split at hok
    · exact absurd hok (by simp)
    · rw [Except.ok.injEq, Prod.mk.injEq] at hok
      obtain ⟨hviews, hpg⟩ := hok
      subst hviews
      obtain ⟨c, hc, rfl⟩ := List.mem_map.mp hv
      refine ⟨hvur c.id, ?_⟩
      intro ch hch
      obtain ⟨d, hd, rfl⟩ := List.mem_map.mp hch
      exact hvur d.id

/-- Witness for C10 on `dbOrphanThread` (whose one upvote row belongs to
`bob`), read without a user. -/
theorem anonymous_reads_unannotated_witness :
    (∀ v ∈ (listPosts dbOrphanThread none none none .points .desc 1 10).1,
       v.isUpvoted = false) ∧
    (∀ v ∈ (listChildren dbOrphanThread none 1 .points .desc 1 10).1,
       v.commentUpvotes = []) :=
  ⟨fun v hv => (anonymous_reads_unannotated dbOrphanThread
      (by decide)).1 none none .points .desc 1 10 v hv,
   fun v hv => (anonymous_reads_unannotated dbOrphanThread
      (by decide)).2.2.1 1 .points .desc 1 10 v hv⟩
